import Mathlib

/-!
Verification of the fileutils layer of authd (Go):
`Lrename` (symlink-aware rename), `SymlinkResolutionError`,
`LockDir` (directory locking) and `ChownRecursiveFrom` (filtered
recursive chown), shallowly embedded from the Go source.

OS calls are modelled by oracles (structures of functions fixing the
outcome of each syscall) together with explicit traces of the mutating
calls that were issued, and explicit filesystem states where a claim is
about on-disk contents.
-/

namespace Authd

/-- Go `error` values as they occur in this package: `str` covers
`errors.New` / non-wrapping `fmt.Errorf` / syscall errors; `wrap m c`
is `fmt.Errorf(m ++ ": %w", c)`; `sym` is the `SymlinkResolutionError`
struct (its `err` field may be Go `nil`, hence `Option`). -/
inductive GoErr where
  | str (msg : String)
  | wrap (msg : String) (cause : GoErr)
  | sym (msg : String) (cause : Option GoErr)
deriving Repr

/-- Decidable equality for `GoErr` (written by hand because of the
nested `Option`). -/
def decEqGoErr : (a b : GoErr) → Decidable (a = b)
  | .str m1, .str m2 =>
      if h : m1 = m2 then .isTrue (by rw [h])
      else .isFalse (fun hh => h (by cases hh; rfl))
  | .str _, .wrap _ _ => .isFalse (fun h => by cases h)
  | .str _, .sym _ _ => .isFalse (fun h => by cases h)
  | .wrap _ _, .str _ => .isFalse (fun h => by cases h)
  | .wrap _ _, .sym _ _ => .isFalse (fun h => by cases h)
  | .sym _ _, .str _ => .isFalse (fun h => by cases h)
  | .sym _ _, .wrap _ _ => .isFalse (fun h => by cases h)
  | .wrap m1 c1, .wrap m2 c2 =>
      if h : m1 = m2 then
        match decEqGoErr c1 c2 with
        | .isTrue hc => .isTrue (by rw [h, hc])
        | .isFalse hc => .isFalse (fun hh => hc (by cases hh; rfl))
      else .isFalse (fun hh => h (by cases hh; rfl))
  | .sym m1 none, .sym m2 none =>
      if h : m1 = m2 then .isTrue (by rw [h])
      else .isFalse (fun hh => h (by cases hh; rfl))
  | .sym _ none, .sym _ (some _) => .isFalse (fun h => by cases h)
  | .sym _ (some _), .sym _ none => .isFalse (fun h => by cases h)
  | .sym m1 (some a), .sym m2 (some b) =>
      if h : m1 = m2 then
        match decEqGoErr a b with
        | .isTrue hc => .isTrue (by rw [h, hc])
        | .isFalse hc => .isFalse (fun hh => hc (by cases hh; rfl))
      else .isFalse (fun hh => h (by cases hh; rfl))

instance : DecidableEq GoErr := decEqGoErr

/-- Method `Unwrap` of `SymlinkResolutionError` together with the
`Unwrap` method of wrapping `fmt.Errorf` values; `str` errors have no
`Unwrap` method. -/
def unwrapErr : GoErr → Option GoErr
  | .str _ => none
  | .wrap _ c => some c
  | .sym _ c => c

/-- Method dispatch of the `Is` method used by `errors.Is`: only
`SymlinkResolutionError` defines one, and it compares the target
against the zero value `SymlinkResolutionError` (empty message, nil
cause), ignoring the fields of the receiver. -/
def isMethod : GoErr → GoErr → Bool
  | .sym _ _, target => target == GoErr.sym "" none
  | .str _, _ => false
  | .wrap _ _, _ => false

/-- Function `errors.Is(err, target)` of the Go stdlib, for a non-nil
target: direct equality, then the `Is` method, then recurse through
`Unwrap` until it returns nil. -/
def errorsIs : GoErr → GoErr → Bool
  | .str m, target => GoErr.str m == target
  | .wrap m c, target =>
      GoErr.wrap m c == target || isMethod (GoErr.wrap m c) target || errorsIs c target
  | .sym m c, target =>
      GoErr.sym m c == target || isMethod (GoErr.sym m c) target ||
      (match c with
       | some c0 => errorsIs c0 target
       | none => false)

/-- The result of `os.Lstat` that `Lrename` inspects: whether
`fi.Mode() & os.ModeSymlink` is non-zero. -/
structure FileInfo where
  isSymlink : Bool
deriving DecidableEq, Repr

/-- Oracle fixing the outcomes of the OS calls `Lrename` makes:
`os.Lstat`, `filepath.EvalSymlinks`, and `os.Rename` (`none` =
success). -/
structure RenameOS where
  lstat : String → Except GoErr FileInfo
  evalSymlinks : String → Except GoErr String
  rename : String → String → Option GoErr

/-- A mutating filesystem call issued by `Lrename`. -/
inductive RenameOp where
  | rename (oldPath newPath : String)
deriving DecidableEq, Repr

/-- Model of `fileutils.Lrename(oldPath, newPath)`: lstat the destination; on any
lstat error, or when it is not a symlink, do a plain `os.Rename`;
otherwise resolve the symlink and rename onto the resolved path, or
return a `SymlinkResolutionError` if resolution fails. Returns the Go
result together with the trace of rename calls issued. -/
def Lrename (os : RenameOS) (oldPath newPath : String) :
    Option GoErr × List RenameOp :=
  match os.lstat newPath with
  | .error _ => (os.rename oldPath newPath, [.rename oldPath newPath])
  | .ok fi =>
    if fi.isSymlink = false then
      (os.rename oldPath newPath, [.rename oldPath newPath])
    else
      match os.evalSymlinks newPath with
      | .error e =>
          (some (GoErr.sym "failed to resolve symlinks in Lrename" (some e)), [])
      | .ok resolved => (os.rename oldPath resolved, [.rename oldPath resolved])

/-- Filesystem view for rename claims: path to node (file with content,
directory, or symlink entry). -/
inductive RNode where
  | file (content : String)
  | dir
  | symlink (target : String)
deriving DecidableEq, Repr

/-- Rename filesystems map paths to optional nodes. -/
abbrev RFs : Type := String → Option RNode

/-- Effect of one successful `rename(old, new)`: `new` now holds what
`old` held, `old` is gone, everything else untouched. -/
def applyRename (fs : RFs) (oldPath newPath : String) : RFs :=
  fun p => if p = newPath then fs oldPath else if p = oldPath then none else fs p

/-- Replay a trace of rename calls on a filesystem, applying each call
that the oracle says succeeded. -/
def applyRenameOps (os : RenameOS) : RFs → List RenameOp → RFs
  | fs, [] => fs
  | fs, .rename o n :: rest =>
      applyRenameOps os (if os.rename o n = none then applyRename fs o n else fs) rest

/-- The Go error `os.Lstat` returns for a missing destination
(`*PathError` around `ENOENT`). -/
def errNotExist : GoErr := .str "no such file or directory"

/-- The `syscall.Stat_t` fields `ChownRecursiveFrom` reads (uint32 on
Linux, modelled as `Nat`). -/
structure Stat_t where
  Uid : Nat
  Gid : Nat
deriving DecidableEq, Repr

/-- A filesystem entry for the chown claims: its ownership plus, when
the entry is a symlink, the path it points at (`os.Lchown` never
follows it). -/
structure FNode where
  stat : Stat_t
  linkTarget : Option String
deriving DecidableEq, Repr

/-- Ownership filesystems map paths to optional entries. -/
abbrev ChFs : Type := String → Option FNode

/-- `fileutils.ChownUIDArgs`. -/
structure ChownUIDArgs where
  FromUID : Nat
  ToUID : Nat
deriving DecidableEq, Repr

/-- `fileutils.ChownGIDArgs`. -/
structure ChownGIDArgs where
  FromGID : Nat
  ToGID : Nat
deriving DecidableEq, Repr

/-- One issued `os.Lchown(path, uid, gid)` syscall; `-1` means "leave
this id unchanged", exactly as in the Go calls. -/
structure LchownCall where
  path : String
  uid : Int
  gid : Int
deriving DecidableEq, Repr

/-- Oracle fixing which OS calls of the walk fail: `d.Info()` per path,
and `os.Lchown` per exact argument triple (`none` = success). -/
structure ChownOS where
  infoErr : String → Option GoErr
  lchownErr : String → Int → Int → Option GoErr

/-- Effect of a successful `os.Lchown(path, uid, gid)` on the
filesystem: it updates the ids of the entry at `path` itself (a `-1`
argument leaves that id alone) and touches nothing else — in
particular never the target of a symlink entry. -/
def Lchown (fs : ChFs) (path : String) (uid gid : Int) : ChFs :=
  fun q =>
    if q = path then
      (fs q).map fun node =>
        { node with
          stat := ⟨if uid = -1 then node.stat.Uid else uid.toNat,
                   if gid = -1 then node.stat.Gid else gid.toNat⟩ }
    else fs q

/-- Output of one step (or of the whole walk): the filesystem after it,
the `Lchown` syscalls issued (successful or failing), and the Go error
returned. -/
structure StepOut where
  fs : ChFs
  trace : List LchownCall
  err : Option GoErr

/-- The first `if` of the walk body: when a UID filter is present and
the fresh stat matches `FromUID`, issue `os.Lchown(path,
int(ToUID), -1)`; a failure is wrapped as `failed to change
ownership`. -/
def uidStep (uidArgs : Option ChownUIDArgs) (os : ChownOS) (path : String)
    (st : Stat_t) (fs : ChFs) : StepOut :=
  match uidArgs with
  | none => ⟨fs, [], none⟩
  | some ua =>
    if st.Uid = ua.FromUID then
      match os.lchownErr path (Int.ofNat ua.ToUID) (-1) with
      | some e =>
          ⟨fs, [⟨path, Int.ofNat ua.ToUID, -1⟩],
           some (GoErr.wrap "failed to change ownership" e)⟩
      | none =>
          ⟨Lchown fs path (Int.ofNat ua.ToUID) (-1),
           [⟨path, Int.ofNat ua.ToUID, -1⟩], none⟩
    else ⟨fs, [], none⟩

/-- The second `if` of the walk body: when a GID filter is present and
the fresh stat matches `FromGID`, issue `os.Lchown(path, -1,
int(ToGID))`; a failure is wrapped as `failed to change group
ownership`. -/
def gidStep (gidArgs : Option ChownGIDArgs) (os : ChownOS) (path : String)
    (st : Stat_t) (fs : ChFs) : StepOut :=
  match gidArgs with
  | none => ⟨fs, [], none⟩
  | some ga =>
    if st.Gid = ga.FromGID then
      match os.lchownErr path (-1) (Int.ofNat ga.ToGID) with
      | some e =>
          ⟨fs, [⟨path, -1, Int.ofNat ga.ToGID⟩],
           some (GoErr.wrap "failed to change group ownership" e)⟩
      | none =>
          ⟨Lchown fs path (-1) (Int.ofNat ga.ToGID),
           [⟨path, -1, Int.ofNat ga.ToGID⟩], none⟩
    else ⟨fs, [], none⟩

/-- The walk callback body on an entry visited without a walk error:
read the fresh stat via `d.Info()` (its failure modelled by the
`infoErr` oracle; the `info.Sys()` type assertion always succeeds on
Linux), then the UID branch followed, in this order, by the GID branch
on the updated filesystem but with the originally read stat. -/
def chownVisit (uidArgs : Option ChownUIDArgs) (gidArgs : Option ChownGIDArgs)
    (os : ChownOS) (path : String) (fs : ChFs) : StepOut :=
  match os.infoErr path with
  | some e => ⟨fs, [], some e⟩
  | none =>
    match fs path with
    | none => ⟨fs, [], some (GoErr.str ("failed to stat " ++ path))⟩
    | some node =>
      match (uidStep uidArgs os path node.stat fs).err with
      | some e =>
          ⟨(uidStep uidArgs os path node.stat fs).fs,
           (uidStep uidArgs os path node.stat fs).trace, some e⟩
      | none =>
          ⟨(gidStep gidArgs os path node.stat
              (uidStep uidArgs os path node.stat fs).fs).fs,
           (uidStep uidArgs os path node.stat fs).trace ++
             (gidStep gidArgs os path node.stat
               (uidStep uidArgs os path node.stat fs).fs).trace,
           (gidStep gidArgs os path node.stat
             (uidStep uidArgs os path node.stat fs).fs).err⟩

/-- One invocation of the `filepath.WalkDir` callback: either a visited
path (callback `err` argument nil) or a walk error handed to the
callback (`fail`), which the body returns as-is. -/
inductive WalkEvent where
  | visit (path : String)
  | fail (path : String) (e : GoErr)
deriving DecidableEq, Repr

/-- Dispatch of one walk event to the callback body. -/
def chownStep (uidArgs : Option ChownUIDArgs) (gidArgs : Option ChownGIDArgs)
    (os : ChownOS) (fs : ChFs) : WalkEvent → StepOut
  | .fail _ e => ⟨fs, [], some e⟩
  | .visit p => chownVisit uidArgs gidArgs os p fs

/-- `filepath.WalkDir` as `ChownRecursiveFrom` uses it: run the callback
on each event in order, threading the filesystem, stopping at the first
event whose callback returns a non-nil error and returning that
error. -/
def walkDirChown (uidArgs : Option ChownUIDArgs) (gidArgs : Option ChownGIDArgs)
    (os : ChownOS) : List WalkEvent → ChFs → StepOut
  | [], fs => ⟨fs, [], none⟩
  | ev :: rest, fs =>
    match (chownStep uidArgs gidArgs os fs ev).err with
    | some e =>
        ⟨(chownStep uidArgs gidArgs os fs ev).fs,
         (chownStep uidArgs gidArgs os fs ev).trace, some e⟩
    | none =>
        ⟨(walkDirChown uidArgs gidArgs os rest
            (chownStep uidArgs gidArgs os fs ev).fs).fs,
         (chownStep uidArgs gidArgs os fs ev).trace ++
           (walkDirChown uidArgs gidArgs os rest
             (chownStep uidArgs gidArgs os fs ev).fs).trace,
         (walkDirChown uidArgs gidArgs os rest
           (chownStep uidArgs gidArgs os fs ev).fs).err⟩

/-- Model of `fileutils.ChownRecursiveFrom(root, uidArgs, gidArgs)`: both
filters nil is rejected up front before any filesystem access;
otherwise the tree walk runs over the events `filepath.WalkDir`
produces for `root` (kept abstract as a list, since the claims do not
depend on the lexical visit order). -/
def ChownRecursiveFrom (uidArgs : Option ChownUIDArgs)
    (gidArgs : Option ChownGIDArgs) (os : ChownOS) (events : List WalkEvent)
    (fs : ChFs) : StepOut :=
  match uidArgs, gidArgs with
  | none, none =>
      ⟨fs, [],
       some (GoErr.str
         "ChownRecursiveFrom: at least one of uidArgs or gidArgs must be non-nil")⟩
  | _, _ => walkDirChown uidArgs gidArgs os events fs

/-- An OS call issued by `LockDir` or by the unlock closure it
returns. -/
inductive LockOp where
  | openLock (path : String)
  | flockEx
  | flockUn
  | closeF
  | remove (path : String)
deriving DecidableEq, Repr

/-- Oracle fixing the outcomes of the four OS calls of the lock code
(`none` = success). -/
structure LockOS where
  openErr : Option GoErr
  flockExErr : Option GoErr
  flockUnErr : Option GoErr
  closeErr : Option GoErr

/-- Output of `LockDir`: the set of existing paths afterwards, the trace
of OS calls issued, and the Go error (`none` means the lock was
acquired and the unlock closure returned). -/
structure LockOut where
  fsys : String → Bool
  trace : List LockOp
  err : Option GoErr

/-- `filepath.Join(dir, ".lock")` for a clean directory path. -/
def lockPath (dir : String) : String := dir ++ "/.lock"

/-- Model of `fileutils.LockDir(dir)`: open (creating if absent) the
`.lock` file in `dir`, then take a blocking exclusive flock; on flock
failure the descriptor is closed and the error returned. Blocking on
contention is invisible here — the flock oracle reports only genuine
OS errors. -/
def LockDir (os : LockOS) (fsys : String → Bool) (dir : String) : LockOut :=
  match os.openErr with
  | some e => ⟨fsys, [.openLock (lockPath dir)], some e⟩
  | none =>
    let fsys1 : String → Bool := fun p => if p = lockPath dir then true else fsys p
    match os.flockExErr with
    | some e => ⟨fsys1, [.openLock (lockPath dir), .flockEx, .closeF], some e⟩
    | none => ⟨fsys1, [.openLock (lockPath dir), .flockEx], none⟩

/-- The unlock closure `LockDir` returns: flock `LOCK_UN` first; if that
fails, close the descriptor (its error discarded) and return the flock
error; otherwise return the result of closing the descriptor. -/
def unlockFn (os : LockOS) : Option GoErr × List LockOp :=
  match os.flockUnErr with
  | some e => (some e, [.flockUn, .closeF])
  | none => (os.closeErr, [.flockUn, .closeF])

/-! Concrete fixtures used to evaluate the theorems on explicit
inputs. -/

/-- Rename oracle on which lstat of the destination fails with a
permission error while renaming succeeds. -/
def permOS : RenameOS :=
  ⟨fun _ => .error (GoErr.str "permission denied"),
   fun _ => .error (GoErr.str "unused"),
   fun _ _ => none⟩

/-- Rename oracle on which the destination is a symlink whose
resolution fails with a loop error. -/
def loopOS : RenameOS :=
  ⟨fun _ => .ok ⟨true⟩,
   fun _ => .error (GoErr.str "too many levels of symbolic links"),
   fun _ _ => none⟩

/-- Rename oracle on which the destination is a symlink resolving to
the path `r`, and renames succeed. -/
def linkOS : RenameOS :=
  ⟨fun _ => .ok ⟨true⟩,
   fun _ => .ok "r",
   fun _ _ => none⟩

/-- A small filesystem: a source file `s`, a symlink `d` to `r`, and a
directory `r`. -/
def linkFS : RFs :=
  fun p =>
    if p = "s" then some (.file "payload")
    else if p = "d" then some (.symlink "r")
    else if p = "r" then some .dir
    else none

/-- Chown oracle on which every OS call succeeds. -/
def okChownOS : ChownOS := ⟨fun _ => none, fun _ _ _ => none⟩

/-- Chown oracle on which every `Lchown` on path `b` fails with `EPERM`
and everything else succeeds. -/
def epermChownOS : ChownOS :=
  ⟨fun _ => none, fun p _ _ => if p = "b" then some (GoErr.str "EPERM") else none⟩

/-- Chown oracle on which exactly the group-change `Lchown` calls (gid
argument not `-1`) fail with `EPERM`. -/
def gidFailChownOS : ChownOS :=
  ⟨fun _ => none, fun _ _ g => if g = -1 then none else some (GoErr.str "EPERM")⟩

/-- A filesystem with a symlink `ln` owned by `1000:50` pointing at
`tgt`, also owned by `1000:50`. -/
def linkChFS : ChFs :=
  fun q =>
    if q = "ln" then some ⟨⟨1000, 50⟩, some "tgt"⟩
    else if q = "tgt" then some ⟨⟨1000, 50⟩, none⟩
    else none

/-- A filesystem with three regular entries `a`, `b`, `c` owned by UID
1000 and GIDs 5, 6, 7. -/
def abcChFS : ChFs :=
  fun q =>
    if q = "a" then some ⟨⟨1000, 5⟩, none⟩
    else if q = "b" then some ⟨⟨1000, 6⟩, none⟩
    else if q = "c" then some ⟨⟨1000, 7⟩, none⟩
    else none

/-- Lock oracle on which every OS call succeeds. -/
def okLockOS : LockOS := ⟨none, none, none, none⟩

/-- Lock oracle on which the unlock flock fails with `EIO`. -/
def unFailLockOS : LockOS := ⟨none, none, some (GoErr.str "EIO"), none⟩

/-- An empty path set. -/
def emptyPaths : String → Bool := fun _ => false

/-- Helper: a nonnegative integer literal is never the `-1` sentinel of
`Lchown`. -/
theorem ofNat_ne_negOne (n : Nat) : (Int.ofNat n) ≠ -1 := by
  simp only [Int.ofNat_eq_coe]
  omega

/-- C5: calling `ChownRecursiveFrom` with both the UID filter and the
GID filter nil returns the precondition-violation error immediately:
the result is that fixed error, the filesystem is returned unchanged
and no syscall is issued, whatever the walk events (in particular also
when the root does not exist and the walk would only produce an
error event). -/
theorem chown_nil_filters_precondition (os : ChownOS) (events : List WalkEvent)
    (fs : ChFs) :
    ChownRecursiveFrom none none os events fs =
      ⟨fs, [],
       some (GoErr.str
         "ChownRecursiveFrom: at least one of uidArgs or gidArgs must be non-nil")⟩ :=
  rfl

/-- C8, counterexample: two `SymlinkResolutionError` values with
different messages do not compare equal under `errors.Is` in either
direction, so a kind-equality check directly between two arbitrary
instances does not succeed. -/
theorem symerr_pairwise_is_cex :
    errorsIs (GoErr.sym "e1" (some (GoErr.str "a"))) (GoErr.sym "e2" none) = false ∧
    errorsIs (GoErr.sym "e2" none) (GoErr.sym "e1" (some (GoErr.str "a"))) = false := by
  decide

/-- C8, amended: every `SymlinkResolutionError` value, regardless of its
embedded message and wrapped cause, is matched by `errors.Is` against
the zero-value `SymlinkResolutionError` sentinel — so any two values
are recognised as the same kind of error by both matching that
sentinel — and every value unwraps to its underlying cause. -/
theorem symerr_kind_sentinel (m1 m2 : String) (c1 c2 : Option GoErr) :
    errorsIs (GoErr.sym m1 c1) (GoErr.sym "" none) = true ∧
    errorsIs (GoErr.sym m2 c2) (GoErr.sym "" none) = true ∧
    unwrapErr (GoErr.sym m1 c1) = c1 ∧
    unwrapErr (GoErr.sym m2 c2) = c2 := by
  refine ⟨?_, ?_, rfl, rfl⟩ <;>
    · unfold errorsIs
      simp [isMethod]

/-- C10: when the unlock flock call fails, the unlock closure still
closes the underlying descriptor (the close call appears in the trace
after the flock call) and returns the flock error, so the descriptor
is not leaked on the release error path. -/
theorem unlock_closes_on_flock_error (os : LockOS) (e : GoErr)
    (h : os.flockUnErr = some e) :
    unlockFn os = (some e, [LockOp.flockUn, LockOp.closeF]) := by
  unfold unlockFn
  rw [h]

theorem unlock_closes_on_flock_error_w :
    unlockFn unFailLockOS = (some (GoErr.str "EIO"), [LockOp.flockUn, LockOp.closeF]) :=
  unlock_closes_on_flock_error unFailLockOS (GoErr.str "EIO") rfl

/-- C7: on a successful acquisition, `LockDir` has created the `.lock`
file inside the directory (leaving every other path alone), neither it
nor the unlock closure ever issues a remove, and the unlock closure
performs flock-unlock first and close second, returning the first
error of the two steps (nil when both succeed). -/
theorem lockDir_success_contract (os : LockOS) (fsys : String → Bool) (dir : String)
    (hopen : os.openErr = none) (hflock : os.flockExErr = none) :
    (LockDir os fsys dir).err = none ∧
    (LockDir os fsys dir).fsys (lockPath dir) = true ∧
    (∀ p, p ≠ lockPath dir → (LockDir os fsys dir).fsys p = fsys p) ∧
    (∀ p, LockOp.remove p ∉ (LockDir os fsys dir).trace) ∧
    (∀ p, LockOp.remove p ∉ (unlockFn os).2) ∧
    (unlockFn os).2 = [LockOp.flockUn, LockOp.closeF] ∧
    (unlockFn os).1 =
      (match os.flockUnErr with
       | some e => some e
       | none => os.closeErr) := by
  unfold LockDir unlockFn
  rw [hopen, hflock]
  refine ⟨rfl, by simp, fun p hp => by simp [hp], ?_, ?_, ?_, ?_⟩
  · intro p
    simp
  · intro p
    rcases os.flockUnErr with _ | e <;> simp
  · rcases os.flockUnErr with _ | e <;> rfl
  · rcases os.flockUnErr with _ | e <;> rfl

theorem lockDir_success_contract_w :
    (LockDir okLockOS emptyPaths "d").err = none ∧
    (LockDir okLockOS emptyPaths "d").fsys (lockPath "d") = true ∧
    (LockDir okLockOS emptyPaths "d").fsys "d/other" = emptyPaths "d/other" ∧
    (unlockFn okLockOS).2 = [LockOp.flockUn, LockOp.closeF] ∧
    (unlockFn okLockOS).1 = none := by
  have h := lockDir_success_contract okLockOS emptyPaths "d" rfl rfl
  exact ⟨h.1, h.2.1, h.2.2.1 "d/other" (by decide), h.2.2.2.2.2.1, h.2.2.2.2.2.2⟩

/-- C1, counterexample: on a destination whose lstat fails with a
permission error, `Lrename` does issue a rename and does not return
the stat error — against the claim that the stat error is returned
unwrapped with no rename performed. -/
theorem lrename_stat_error_fallback_cex :
    (Lrename permOS "src" "dst").2 = [RenameOp.rename "src" "dst"] ∧
    (Lrename permOS "src" "dst").1 ≠ some (GoErr.str "permission denied") := by
  decide

/-- C1, amended: when the pre-rename lstat of the destination fails
with any error (not-exist or otherwise), `Lrename` discards the stat
error, performs a plain rename of source onto destination, and returns
that rename result. -/
theorem lrename_stat_error_fallback (os : RenameOS) (oldPath newPath : String)
    (e : GoErr) (h : os.lstat newPath = .error e) :
    Lrename os oldPath newPath =
      (os.rename oldPath newPath, [RenameOp.rename oldPath newPath]) := by
  unfold Lrename
  rw [h]

theorem lrename_stat_error_fallback_w :
    Lrename permOS "src" "dst" = (none, [RenameOp.rename "src" "dst"]) :=
  lrename_stat_error_fallback permOS "src" "dst" (GoErr.str "permission denied") rfl

/-- C2: when the destination exists and is a symlink whose resolution
fails, `Lrename` returns a `SymlinkResolutionError` with the fixed
message wrapping the underlying cause, issues no rename at all, and
replaying its (empty) trace leaves every filesystem — in particular
the source and the symlink entry — unchanged. -/
theorem lrename_symlink_resolution_error (os : RenameOS) (oldPath newPath : String)
    (fi : FileInfo) (e : GoErr)
    (hstat : os.lstat newPath = .ok fi) (hsym : fi.isSymlink = true)
    (heval : os.evalSymlinks newPath = .error e) :
    Lrename os oldPath newPath =
      (some (GoErr.sym "failed to resolve symlinks in Lrename" (some e)), []) ∧
    unwrapErr (GoErr.sym "failed to resolve symlinks in Lrename" (some e)) = some e ∧
    (∀ fs : RFs, applyRenameOps os fs (Lrename os oldPath newPath).2 = fs) := by
  have h1 : Lrename os oldPath newPath =
      (some (GoErr.sym "failed to resolve symlinks in Lrename" (some e)), []) := by
    unfold Lrename
    rw [hstat]
    simp [hsym, heval]
  refine ⟨h1, rfl, fun fs => ?_⟩
  rw [h1]
  rfl

theorem lrename_symlink_resolution_error_w :
    Lrename loopOS "s" "d" =
      (some (GoErr.sym "failed to resolve symlinks in Lrename"
        (some (GoErr.str "too many levels of symbolic links"))), []) ∧
    applyRenameOps loopOS linkFS (Lrename loopOS "s" "d").2 = linkFS := by
  have h := lrename_symlink_resolution_error loopOS "s" "d" ⟨true⟩
    (GoErr.str "too many levels of symbolic links") rfl rfl rfl
  exact ⟨h.1, h.2.2 linkFS⟩

/-- C3: with no symlink in the destination — lstat says not-exist or a
non-symlink node — `Lrename` is exactly a plain rename of source onto
destination; with a destination symlink resolving to `resolved`, the
single rename issued targets `resolved`, so that after a successful
rename `resolved` holds the prior content of the source, the symlink
entry at the destination is untouched and the source is gone. -/
theorem lrename_rename_semantics :
    (∀ (os : RenameOS) (oldPath newPath : String),
       os.lstat newPath = .error errNotExist →
       Lrename os oldPath newPath =
         (os.rename oldPath newPath, [RenameOp.rename oldPath newPath])) ∧
    (∀ (os : RenameOS) (oldPath newPath : String) (fi : FileInfo),
       os.lstat newPath = .ok fi → fi.isSymlink = false →
       Lrename os oldPath newPath =
         (os.rename oldPath newPath, [RenameOp.rename oldPath newPath])) ∧
    (∀ (os : RenameOS) (oldPath newPath resolved : String) (fi : FileInfo),
       os.lstat newPath = .ok fi → fi.isSymlink = true →
       os.evalSymlinks newPath = .ok resolved →
       Lrename os oldPath newPath =
         (os.rename oldPath resolved, [RenameOp.rename oldPath resolved]) ∧
       (os.rename oldPath resolved = none → oldPath ≠ resolved →
        newPath ≠ resolved → newPath ≠ oldPath →
        ∀ fs : RFs,
          applyRenameOps os fs (Lrename os oldPath newPath).2 resolved = fs oldPath ∧
          applyRenameOps os fs (Lrename os oldPath newPath).2 newPath = fs newPath ∧
          applyRenameOps os fs (Lrename os oldPath newPath).2 oldPath = none)) := by
  refine ⟨?_, ?_, ?_⟩
  · intro os oldPath newPath h
    unfold Lrename
    rw [h]
  · intro os oldPath newPath fi hstat hsym
    unfold Lrename
    rw [hstat]
    simp [hsym]
  · intro os oldPath newPath resolved fi hstat hsym heval
    have h1 : Lrename os oldPath newPath =
        (os.rename oldPath resolved, [RenameOp.rename oldPath resolved]) := by
      unfold Lrename
      rw [hstat]
      simp [hsym, heval]
    refine ⟨h1, fun hren hor hnr hno fs => ?_⟩
    rw [h1]
    refine ⟨?_, ?_, ?_⟩ <;>
      simp [applyRenameOps, hren, applyRename, hnr, hno, hor]

theorem uidStep_eq_none (os : ChownOS) (p : String) (st : Stat_t) (fs : ChFs) :
    uidStep none os p st fs = ⟨fs, [], none⟩ := rfl

theorem uidStep_eq_skip (ua : ChownUIDArgs) (os : ChownOS) (p : String)
    (st : Stat_t) (fs : ChFs) (h : ¬st.Uid = ua.FromUID) :
    uidStep (some ua) os p st fs = ⟨fs, [], none⟩ := by
  simp only [uidStep]
  rw [if_neg h]

theorem uidStep_eq_ok (ua : ChownUIDArgs) (os : ChownOS) (p : String)
    (st : Stat_t) (fs : ChFs) (h : st.Uid = ua.FromUID)
    (hc : os.lchownErr p (Int.ofNat ua.ToUID) (-1) = none) :
    uidStep (some ua) os p st fs =
      ⟨Lchown fs p (Int.ofNat ua.ToUID) (-1), [⟨p, Int.ofNat ua.ToUID, -1⟩], none⟩ := by
  simp only [uidStep]
  rw [if_pos h, hc]

theorem uidStep_eq_fail (ua : ChownUIDArgs) (os : ChownOS) (p : String)
    (st : Stat_t) (fs : ChFs) (e : GoErr) (h : st.Uid = ua.FromUID)
    (hc : os.lchownErr p (Int.ofNat ua.ToUID) (-1) = some e) :
    uidStep (some ua) os p st fs =
      ⟨fs, [⟨p, Int.ofNat ua.ToUID, -1⟩],
       some (GoErr.wrap "failed to change ownership" e)⟩ := by
  simp only [uidStep]
  rw [if_pos h, hc]

theorem gidStep_eq_none (os : ChownOS) (p : String) (st : Stat_t) (fs : ChFs) :
    gidStep none os p st fs = ⟨fs, [], none⟩ := rfl

theorem gidStep_eq_skip (ga : ChownGIDArgs) (os : ChownOS) (p : String)
    (st : Stat_t) (fs : ChFs) (h : ¬st.Gid = ga.FromGID) :
    gidStep (some ga) os p st fs = ⟨fs, [], none⟩ := by
  simp only [gidStep]
  rw [if_neg h]

theorem gidStep_eq_ok (ga : ChownGIDArgs) (os : ChownOS) (p : String)
    (st : Stat_t) (fs : ChFs) (h : st.Gid = ga.FromGID)
    (hc : os.lchownErr p (-1) (Int.ofNat ga.ToGID) = none) :
    gidStep (some ga) os p st fs =
      ⟨Lchown fs p (-1) (Int.ofNat ga.ToGID), [⟨p, -1, Int.ofNat ga.ToGID⟩], none⟩ := by
  simp only [gidStep]
  rw [if_pos h, hc]

theorem gidStep_eq_fail (ga : ChownGIDArgs) (os : ChownOS) (p : String)
    (st : Stat_t) (fs : ChFs) (e : GoErr) (h : st.Gid = ga.FromGID)
    (hc : os.lchownErr p (-1) (Int.ofNat ga.ToGID) = some e) :
    gidStep (some ga) os p st fs =
      ⟨fs, [⟨p, -1, Int.ofNat ga.ToGID⟩],
       some (GoErr.wrap "failed to change group ownership" e)⟩ := by
  simp only [gidStep]
  rw [if_pos h, hc]

theorem walkDirChown_cons_ok (uidArgs : Option ChownUIDArgs)
    (gidArgs : Option ChownGIDArgs) (os : ChownOS) (a : WalkEvent)
    (rest : List WalkEvent) (fs : ChFs)
    (h : (chownStep uidArgs gidArgs os fs a).err = none) :
    walkDirChown uidArgs gidArgs os (a :: rest) fs =
      ⟨(walkDirChown uidArgs gidArgs os rest (chownStep uidArgs gidArgs os fs a).fs).fs,
       (chownStep uidArgs gidArgs os fs a).trace ++
         (walkDirChown uidArgs gidArgs os rest
           (chownStep uidArgs gidArgs os fs a).fs).trace,
       (walkDirChown uidArgs gidArgs os rest
         (chownStep uidArgs gidArgs os fs a).fs).err⟩ := by
  conv_lhs => rw [walkDirChown]
  rw [h]

theorem walkDirChown_cons_fail (uidArgs : Option ChownUIDArgs)
    (gidArgs : Option ChownGIDArgs) (os : ChownOS) (a : WalkEvent)
    (rest : List WalkEvent) (fs : ChFs) (e : GoErr)
    (h : (chownStep uidArgs gidArgs os fs a).err = some e) :
    walkDirChown uidArgs gidArgs os (a :: rest) fs =
      ⟨(chownStep uidArgs gidArgs os fs a).fs,
       (chownStep uidArgs gidArgs os fs a).trace, some e⟩ := by
  conv_lhs => rw [walkDirChown]
  rw [h]

theorem walkDirChown_append_abort (uidArgs : Option ChownUIDArgs)
    (gidArgs : Option ChownGIDArgs) (os : ChownOS) (ev : WalkEvent)
    (post : List WalkEvent) (e : GoErr) :
    ∀ (pre : List WalkEvent) (fs : ChFs),
      (walkDirChown uidArgs gidArgs os pre fs).err = none →
      (chownStep uidArgs gidArgs os (walkDirChown uidArgs gidArgs os pre fs).fs
        ev).err = some e →
      walkDirChown uidArgs gidArgs os (pre ++ ev :: post) fs =
        ⟨(chownStep uidArgs gidArgs os (walkDirChown uidArgs gidArgs os pre fs).fs
            ev).fs,
         (walkDirChown uidArgs gidArgs os pre fs).trace ++
           (chownStep uidArgs gidArgs os (walkDirChown uidArgs gidArgs os pre fs).fs
             ev).trace,
         some e⟩ := by
  intro pre
  induction pre with
  | nil =>
    intro fs hpre hev
    simp only [List.nil_append]
    simp only [walkDirChown] at hev
    rw [walkDirChown_cons_fail uidArgs gidArgs os ev post fs e hev]
    simp [walkDirChown]
  | cons a pre ih =>
    intro fs hpre hev
    rcases ha : (chownStep uidArgs gidArgs os fs a).err with _ | ea
    · have hpre' :
          (walkDirChown uidArgs gidArgs os pre
            (chownStep uidArgs gidArgs os fs a).fs).err = none := by
        rw [walkDirChown_cons_ok uidArgs gidArgs os a pre fs ha] at hpre
        exact hpre
      have hev' :
          (chownStep uidArgs gidArgs os
            (walkDirChown uidArgs gidArgs os pre
              (chownStep uidArgs gidArgs os fs a).fs).fs ev).err = some e := by
        rw [walkDirChown_cons_ok uidArgs gidArgs os a pre fs ha] at hev
        exact hev
      have hih := ih (chownStep uidArgs gidArgs os fs a).fs hpre' hev'
      simp only [List.cons_append]
      rw [walkDirChown_cons_ok uidArgs gidArgs os a (pre ++ ev :: post) fs ha, hih,
          walkDirChown_cons_ok uidArgs gidArgs os a pre fs ha]
      simp [List.append_assoc]
    · rw [walkDirChown_cons_fail uidArgs gidArgs os a pre fs ea ha] at hpre
      simp at hpre

theorem lrename_rename_semantics_w :
    Lrename linkOS "s" "d" = (none, [RenameOp.rename "s" "r"]) ∧
    applyRenameOps linkOS linkFS (Lrename linkOS "s" "d").2 "r" = linkFS "s" ∧
    applyRenameOps linkOS linkFS (Lrename linkOS "s" "d").2 "d" = linkFS "d" ∧
    applyRenameOps linkOS linkFS (Lrename linkOS "s" "d").2 "s" = none := by
  have h := lrename_rename_semantics.2.2 linkOS "s" "d" "r" ⟨true⟩ rfl rfl rfl
  have h2 := h.2 rfl (by decide) (by decide) (by decide) linkFS
  exact ⟨h.1, h2.1, h2.2.1, h2.2.2⟩

/-- C4: a visited entry whose syscalls succeed is rewritten exactly by
the two independent per-entry rules: its UID becomes `ToUID` when a UID
filter is present and the fresh UID equals `FromUID` (else kept), its
GID becomes `ToGID` when a GID filter is present and the fresh GID
equals `FromGID` (else kept) — matching one, both or neither filter,
the last leaving the entry unchanged — while every other path, in
particular the target of a visited symlink entry, is untouched. -/
theorem chown_entry_rule (uidArgs : Option ChownUIDArgs) (gidArgs : Option ChownGIDArgs)
    (os : ChownOS) (p : String) (fs : ChFs) (node : FNode)
    (hinfo : os.infoErr p = none) (hfs : fs p = some node)
    (hok : ∀ u g : Int, os.lchownErr p u g = none) :
    (chownVisit uidArgs gidArgs os p fs).err = none ∧
    (chownVisit uidArgs gidArgs os p fs).fs p =
      some { node with stat :=
        ⟨(match uidArgs with
          | some ua => if node.stat.Uid = ua.FromUID then ua.ToUID else node.stat.Uid
          | none => node.stat.Uid),
         (match gidArgs with
          | some ga => if node.stat.Gid = ga.FromGID then ga.ToGID else node.stat.Gid
          | none => node.stat.Gid)⟩ } ∧
    (∀ q, q ≠ p → (chownVisit uidArgs gidArgs os p fs).fs q = fs q) ∧
    (∀ t, node.linkTarget = some t → t ≠ p →
      (chownVisit uidArgs gidArgs os p fs).fs t = fs t) := by
  rcases uidArgs with _ | ua
  · rcases gidArgs with _ | ga
    · have hv : chownVisit none none os p fs = ⟨fs, [], none⟩ := by
        simp only [chownVisit, hinfo, hfs, uidStep_eq_none, gidStep_eq_none,
          List.append_nil]
      rw [hv]
      refine ⟨rfl, ?_, fun q hq => rfl, fun t ht htp => rfl⟩
      simp [hfs]
    · by_cases hg : node.stat.Gid = ga.FromGID
      · have hv : chownVisit none (some ga) os p fs =
            ⟨Lchown fs p (-1) (Int.ofNat ga.ToGID), [⟨p, -1, Int.ofNat ga.ToGID⟩],
             none⟩ := by
          simp only [chownVisit, hinfo, hfs, uidStep_eq_none,
            gidStep_eq_ok ga os p node.stat fs hg (hok _ _), List.nil_append]
        rw [hv]
        refine ⟨rfl, ?_, fun q hq => ?_, fun t ht htp => ?_⟩
        · simp [Lchown, hfs, hg]
        · simp [Lchown, hq]
        · simp [Lchown, htp]
      · have hv : chownVisit none (some ga) os p fs = ⟨fs, [], none⟩ := by
          simp only [chownVisit, hinfo, hfs, uidStep_eq_none,
            gidStep_eq_skip ga os p node.stat fs hg, List.append_nil]
        rw [hv]
        refine ⟨rfl, ?_, fun q hq => rfl, fun t ht htp => rfl⟩
        simp [hfs, hg]
  · by_cases hu : node.stat.Uid = ua.FromUID
    · rcases gidArgs with _ | ga
      · have hv : chownVisit (some ua) none os p fs =
            ⟨Lchown fs p (Int.ofNat ua.ToUID) (-1),
             [⟨p, Int.ofNat ua.ToUID, -1⟩], none⟩ := by
          simp only [chownVisit, hinfo, hfs,
            uidStep_eq_ok ua os p node.stat fs hu (hok _ _), gidStep_eq_none,
            List.append_nil]
        rw [hv]
        refine ⟨rfl, ?_, fun q hq => ?_, fun t ht htp => ?_⟩
        · simp [Lchown, hfs, hu, ofNat_ne_negOne]
        · simp [Lchown, hq]
        · simp [Lchown, htp]
      · by_cases hg : node.stat.Gid = ga.FromGID
        · have hv : chownVisit (some ua) (some ga) os p fs =
              ⟨Lchown (Lchown fs p (Int.ofNat ua.ToUID) (-1)) p (-1)
                 (Int.ofNat ga.ToGID),
               [⟨p, Int.ofNat ua.ToUID, -1⟩, ⟨p, -1, Int.ofNat ga.ToGID⟩],
               none⟩ := by
            simp only [chownVisit, hinfo, hfs,
              uidStep_eq_ok ua os p node.stat fs hu (hok _ _),
              gidStep_eq_ok ga os p node.stat
                (Lchown fs p (Int.ofNat ua.ToUID) (-1)) hg (hok _ _),
              List.cons_append, List.nil_append]
          rw [hv]
          refine ⟨rfl, ?_, fun q hq => ?_, fun t ht htp => ?_⟩
          · simp [Lchown, hfs, hu, hg, ofNat_ne_negOne]
          · simp [Lchown, hq]
          · simp [Lchown, htp]
        · have hv : chownVisit (some ua) (some ga) os p fs =
              ⟨Lchown fs p (Int.ofNat ua.ToUID) (-1),
               [⟨p, Int.ofNat ua.ToUID, -1⟩], none⟩ := by
            simp only [chownVisit, hinfo, hfs,
              uidStep_eq_ok ua os p node.stat fs hu (hok _ _),
              gidStep_eq_skip ga os p node.stat
                (Lchown fs p (Int.ofNat ua.ToUID) (-1)) hg, List.append_nil]
          rw [hv]
          refine ⟨rfl, ?_, fun q hq => ?_, fun t ht htp => ?_⟩
          · simp [Lchown, hfs, hu, hg, ofNat_ne_negOne]
          · simp [Lchown, hq]
          · simp [Lchown, htp]
    · rcases gidArgs with _ | ga
      · have hv : chownVisit (some ua) none os p fs = ⟨fs, [], none⟩ := by
          simp only [chownVisit, hinfo, hfs,
            uidStep_eq_skip ua os p node.stat fs hu, gidStep_eq_none,
            List.append_nil]
        rw [hv]
        refine ⟨rfl, ?_, fun q hq => rfl, fun t ht htp => rfl⟩
        simp [hfs, hu]
      · by_cases hg : node.stat.Gid = ga.FromGID
        · have hv : chownVisit (some ua) (some ga) os p fs =
              ⟨Lchown fs p (-1) (Int.ofNat ga.ToGID),
               [⟨p, -1, Int.ofNat ga.ToGID⟩], none⟩ := by
            simp only [chownVisit, hinfo, hfs,
              uidStep_eq_skip ua os p node.stat fs hu,
              gidStep_eq_ok ga os p node.stat fs hg (hok _ _), List.nil_append]
          rw [hv]
          refine ⟨rfl, ?_, fun q hq => ?_, fun t ht htp => ?_⟩
          · simp [Lchown, hfs, hu, hg]
          · simp [Lchown, hq]
          · simp [Lchown, htp]
        · have hv : chownVisit (some ua) (some ga) os p fs = ⟨fs, [], none⟩ := by
            simp only [chownVisit, hinfo, hfs,
              uidStep_eq_skip ua os p node.stat fs hu,
              gidStep_eq_skip ga os p node.stat fs hg, List.append_nil]
          rw [hv]
          refine ⟨rfl, ?_, fun q hq => rfl, fun t ht htp => rfl⟩
          simp [hfs, hu, hg]

theorem chown_entry_rule_w :
    (chownVisit (some ⟨1000, 3000⟩) (some ⟨60, 70⟩) okChownOS "ln" linkChFS).err =
      none ∧
    (chownVisit (some ⟨1000, 3000⟩) (some ⟨60, 70⟩) okChownOS "ln" linkChFS).fs "ln" =
      some ⟨⟨3000, 50⟩, some "tgt"⟩ ∧
    (chownVisit (some ⟨1000, 3000⟩) (some ⟨60, 70⟩) okChownOS "ln" linkChFS).fs "tgt" =
      linkChFS "tgt" := by
  have h := chown_entry_rule (some ⟨1000, 3000⟩) (some ⟨60, 70⟩) okChownOS "ln"
    linkChFS ⟨⟨1000, 50⟩, some "tgt"⟩ rfl rfl (fun u g => rfl)
  refine ⟨h.1, ?_, h.2.2.2 "tgt" rfl (by decide)⟩
  rw [h.2.1]
  decide

/-- C6: the tree walk stops at the first failing step and returns that
error: for any successfully processed prefix, an event whose callback
fails makes the whole walk return that error, keeping the changes of
the prefix (no rollback) and ignoring the remaining events; a
metadata-read failure is returned as-is and leaves the entry alone,
while a failing UID-change syscall is returned wrapped as `failed to
change ownership` and a failing GID-change syscall wrapped as `failed
to change group ownership`, in both cases without a filesystem
change. -/
theorem chown_abort_first_error :
    (∀ (uidArgs : Option ChownUIDArgs) (gidArgs : Option ChownGIDArgs) (os : ChownOS)
       (ev : WalkEvent) (post : List WalkEvent) (e : GoErr) (pre : List WalkEvent)
       (fs : ChFs),
       (walkDirChown uidArgs gidArgs os pre fs).err = none →
       (chownStep uidArgs gidArgs os (walkDirChown uidArgs gidArgs os pre fs).fs
         ev).err = some e →
       walkDirChown uidArgs gidArgs os (pre ++ ev :: post) fs =
         ⟨(chownStep uidArgs gidArgs os (walkDirChown uidArgs gidArgs os pre fs).fs
             ev).fs,
          (walkDirChown uidArgs gidArgs os pre fs).trace ++
            (chownStep uidArgs gidArgs os (walkDirChown uidArgs gidArgs os pre fs).fs
              ev).trace,
          some e⟩) ∧
    (∀ (uidArgs : Option ChownUIDArgs) (gidArgs : Option ChownGIDArgs) (os : ChownOS)
       (p : String) (fs : ChFs) (e : GoErr),
       os.infoErr p = some e →
       chownVisit uidArgs gidArgs os p fs = ⟨fs, [], some e⟩) ∧
    (∀ (ua : ChownUIDArgs) (os : ChownOS) (p : String) (st : Stat_t) (fs : ChFs)
       (e : GoErr),
       st.Uid = ua.FromUID → os.lchownErr p (Int.ofNat ua.ToUID) (-1) = some e →
       (uidStep (some ua) os p st fs).err =
         some (GoErr.wrap "failed to change ownership" e) ∧
       (uidStep (some ua) os p st fs).fs = fs) ∧
    (∀ (ga : ChownGIDArgs) (os : ChownOS) (p : String) (st : Stat_t) (fs : ChFs)
       (e : GoErr),
       st.Gid = ga.FromGID → os.lchownErr p (-1) (Int.ofNat ga.ToGID) = some e →
       (gidStep (some ga) os p st fs).err =
         some (GoErr.wrap "failed to change group ownership" e) ∧
       (gidStep (some ga) os p st fs).fs = fs) := by
  refine ⟨fun uidArgs gidArgs os ev post e pre fs h1 h2 =>
      walkDirChown_append_abort uidArgs gidArgs os ev post e pre fs h1 h2,
    fun uidArgs gidArgs os p fs e h => by simp [chownVisit, h],
    fun ua os p st fs e h hc => by
      rw [uidStep_eq_fail ua os p st fs e h hc]
      exact ⟨rfl, rfl⟩,
    fun ga os p st fs e h hc => by
      rw [gidStep_eq_fail ga os p st fs e h hc]
      exact ⟨rfl, rfl⟩⟩

theorem chown_abort_first_error_w :
    (walkDirChown (some ⟨1000, 3000⟩) none epermChownOS
       [WalkEvent.visit "a", WalkEvent.visit "b", WalkEvent.visit "c"] abcChFS).err =
      some (GoErr.wrap "failed to change ownership" (GoErr.str "EPERM")) ∧
    (walkDirChown (some ⟨1000, 3000⟩) none epermChownOS
       [WalkEvent.visit "a", WalkEvent.visit "b", WalkEvent.visit "c"] abcChFS).trace =
      [⟨"a", 3000, -1⟩, ⟨"b", 3000, -1⟩] ∧
    (walkDirChown (some ⟨1000, 3000⟩) none epermChownOS
       [WalkEvent.visit "a", WalkEvent.visit "b", WalkEvent.visit "c"] abcChFS).fs "a" =
      some ⟨⟨3000, 5⟩, none⟩ := by
  have h := chown_abort_first_error.1 (some ⟨1000, 3000⟩) none epermChownOS
    (WalkEvent.visit "b") [WalkEvent.visit "c"]
    (GoErr.wrap "failed to change ownership" (GoErr.str "EPERM"))
    [WalkEvent.visit "a"] abcChFS rfl rfl
  rw [show ([WalkEvent.visit "a", WalkEvent.visit "b", WalkEvent.visit "c"] :
        List WalkEvent) =
      [WalkEvent.visit "a"] ++ WalkEvent.visit "b" :: [WalkEvent.visit "c"] from rfl,
    h]
  exact ⟨rfl, rfl, rfl⟩

/-- C9: on an entry matching both filters, the UID-change syscall is
issued strictly before the GID-change syscall as two separate `Lchown`
calls (visible in the trace order); when the UID change succeeds and
the GID change fails, the walk aborts with the wrapped GID error while
the already-applied UID change persists in the resulting filesystem,
and the remaining events are ignored. -/
theorem chown_uid_then_gid_order (ua : ChownUIDArgs) (ga : ChownGIDArgs)
    (os : ChownOS) (p : String) (fs : ChFs) (node : FNode) (e : GoErr)
    (rest : List WalkEvent)
    (hinfo : os.infoErr p = none) (hfs : fs p = some node)
    (huidm : node.stat.Uid = ua.FromUID) (hgidm : node.stat.Gid = ga.FromGID)
    (huid : os.lchownErr p (Int.ofNat ua.ToUID) (-1) = none)
    (hgid : os.lchownErr p (-1) (Int.ofNat ga.ToGID) = some e) :
    walkDirChown (some ua) (some ga) os (WalkEvent.visit p :: rest) fs =
      ⟨Lchown fs p (Int.ofNat ua.ToUID) (-1),
       [⟨p, Int.ofNat ua.ToUID, -1⟩, ⟨p, -1, Int.ofNat ga.ToGID⟩],
       some (GoErr.wrap "failed to change group ownership" e)⟩ := by
  have hv : chownVisit (some ua) (some ga) os p fs =
      ⟨Lchown fs p (Int.ofNat ua.ToUID) (-1),
       [⟨p, Int.ofNat ua.ToUID, -1⟩, ⟨p, -1, Int.ofNat ga.ToGID⟩],
       some (GoErr.wrap "failed to change group ownership" e)⟩ := by
    simp only [chownVisit, hinfo, hfs,
      uidStep_eq_ok ua os p node.stat fs huidm huid,
      gidStep_eq_fail ga os p node.stat
        (Lchown fs p (Int.ofNat ua.ToUID) (-1)) e hgidm hgid,
      List.cons_append, List.nil_append]
  have hstep : (chownStep (some ua) (some ga) os fs (WalkEvent.visit p)).err =
      some (GoErr.wrap "failed to change group ownership" e) := by
    simp only [chownStep, hv]
  rw [walkDirChown_cons_fail (some ua) (some ga) os (WalkEvent.visit p) rest fs _
    hstep]
  simp only [chownStep, hv]

theorem chown_uid_then_gid_order_w :
    (walkDirChown (some ⟨1000, 3000⟩) (some ⟨50, 70⟩) gidFailChownOS
       [WalkEvent.visit "ln"] linkChFS).err =
      some (GoErr.wrap "failed to change group ownership" (GoErr.str "EPERM")) ∧
    (walkDirChown (some ⟨1000, 3000⟩) (some ⟨50, 70⟩) gidFailChownOS
       [WalkEvent.visit "ln"] linkChFS).trace =
      [⟨"ln", 3000, -1⟩, ⟨"ln", -1, 70⟩] ∧
    (walkDirChown (some ⟨1000, 3000⟩) (some ⟨50, 70⟩) gidFailChownOS
       [WalkEvent.visit "ln"] linkChFS).fs "ln" =
      some ⟨⟨3000, 50⟩, some "tgt"⟩ := by
  have h := chown_uid_then_gid_order ⟨1000, 3000⟩ ⟨50, 70⟩ gidFailChownOS "ln"
    linkChFS ⟨⟨1000, 50⟩, some "tgt"⟩ (GoErr.str "EPERM") [] rfl rfl rfl rfl rfl rfl
  rw [h]
  exact ⟨rfl, rfl, rfl⟩

end Authd
